import Mathlib

/-!
Shallow embedding of `Orange/preprocess/fss.py`: the feature selector
`SelectBestFeatures` and the all-missing-column remover `RemoveNaNColumns`,
together with the fragments of the table abstraction they use.

Modelling conventions:
* scores and cell values are rationals (`ℚ`); a missing cell is `none`;
* a variable's dynamic type (`isinstance` against `feature_type` or
  `class_type`) is modelled as a kind tag carried by the variable, compared
  for equality, following the spec's design note that the dynamic type check
  generalises to a tag check;
* Python's `sorted(..., key=itemgetter(0), reverse=decreasing)` is a stable
  sort by score; with `reverse=True` it is the stable descending sort, which
  `List.mergeSort` computes with the flipped comparison;
* Python truthiness guards `if self.k:` and `if self.threshold:` are modelled
  explicitly: `some 0` is falsy, `none` is falsy.
-/

namespace Orange

/-- A column descriptor: a name and a kind tag (the spec's variable *kind*,
standing for the Python class of the variable). -/
structure Variable where
  name : String
  kind : String
  deriving DecidableEq, Repr

/-- The schema of a table: attribute, class and meta variable lists. -/
structure Domain where
  attributes : List Variable
  class_vars : List Variable
  metas : List Variable
  deriving DecidableEq, Repr

/-- Modelled from the spec: `Orange.data.Domain.class_var` is not under
`src/`; per the spec's data model and interface (`domain.class_var` /
`domain.class_vars`) it is the single class variable when the domain has
exactly one, and `None` otherwise. -/
def Domain.class_var (d : Domain) : Option Variable :=
  match d.class_vars with
  | [v] => some v
  | _ => none

/-- A table: a domain and the numeric attribute matrix `X`, one row per data
instance, one `Option ℚ` cell per attribute (`none` is NaN/missing). -/
structure Table where
  domain : Domain
  rows : List (List (Option ℚ))
  deriving DecidableEq, Repr

/-- `isinstance(v, T)` for a variable against a kind tag. -/
def instanceOf (v : Variable) (t : String) : Bool :=
  v.kind == t

/-- `isinstance(data.domain.class_var, T)` where `class_var` may be `None`;
`None` is an instance of nothing. -/
def instanceOfOpt : Option Variable → String → Bool
  | none, _ => false
  | some v, t => instanceOf v t

/-- A scoring method: its identity (`type(self.method)`, modelled as a name),
the required class-variable kind, the required feature kind, and the scoring
function `(feature, table) -> score`. -/
structure ScoringMethod where
  name : String
  class_type : String
  feature_type : String
  score : Variable → Table → ℚ

/-- Modelled from the spec: `Table.from_table` / `Orange.data.Table(domain,
data)` are not under `src/`; per the spec they build a new table over the
given domain containing the corresponding column projection of `data`'s rows,
rows otherwise unchanged. -/
def projectRow (src : List Variable) (dst : List Variable)
    (row : List (Option ℚ)) : List (Option ℚ) :=
  dst.map (fun a =>
    match src.findIdx? (fun b => b == a) with
    | some i => row.getD i none
    | none => none)

/-- Modelled from the spec: table construction over a new domain (see
`projectRow`). -/
def from_table (domain : Domain) (data : Table) : Table :=
  ⟨domain, data.rows.map (projectRow data.domain.attributes domain.attributes)⟩

/-- The configuration of `SelectBestFeatures`: scoring method, optional `k`,
optional `threshold`, and the sort direction (default decreasing). -/
structure SelectBestFeatures where
  method : ScoringMethod
  k : Option Nat := none
  threshold : Option ℚ := none
  decreasing : Bool := true

/-- `features = [f for f in data.domain.attributes if isinstance(f,
self.method.feature_type)]`. -/
def scorableFeatures (m : ScoringMethod) (data : Table) : List Variable :=
  data.domain.attributes.filter (fun f => instanceOf f m.feature_type)

/-- `other = [f for f in data.domain.attributes if not isinstance(f,
self.method.feature_type)]`. -/
def otherFeatures (m : ScoringMethod) (data : Table) : List Variable :=
  data.domain.attributes.filter (fun f => ! instanceOf f m.feature_type)

/-- `zip(scores, features)` where `scores = [self.method(f, data) for f in
features]`. -/
def scoredPairs (m : ScoringMethod) (data : Table) : List (ℚ × Variable) :=
  ((scorableFeatures m data).map (fun f => m.score f data)).zip
    (scorableFeatures m data)

/-- The comparison realising `sorted(..., key=itemgetter(0),
reverse=decreasing)`: compare on the score component only, flipped when
`decreasing`. -/
def pairLE (decreasing : Bool) (a b : ℚ × Variable) : Bool :=
  if decreasing then decide (b.1 ≤ a.1) else decide (a.1 ≤ b.1)

/-- `best = sorted(zip(scores, features), key=itemgetter(0),
reverse=self.decreasing)` — Python's sort is stable, so a stable merge sort
with the (possibly flipped) score comparison. -/
def sortedBest (s : SelectBestFeatures) (data : Table) : List (ℚ × Variable) :=
  (scoredPairs s.method data).mergeSort (pairLE s.decreasing)

/-- `if self.k: best = best[:self.k]` — `k = None` and `k = 0` are falsy. -/
def truncK (k : Option Nat) (best : List (ℚ × Variable)) :
    List (ℚ × Variable) :=
  match k with
  | some kv => if kv != 0 then best.take kv else best
  | none => best

/-- The takewhile predicate: `x[0] >= threshold` when decreasing, else
`x[0] <= threshold`. -/
def thresholdPred (decreasing : Bool) (t : ℚ) (x : ℚ × Variable) : Bool :=
  if decreasing then decide (x.1 ≥ t) else decide (x.1 ≤ t)

/-- `if self.threshold: best = takewhile(pred, best)` — `threshold = None`
and `threshold = 0` are falsy. -/
def truncThreshold (decreasing : Bool) (threshold : Option ℚ)
    (best : List (ℚ × Variable)) : List (ℚ × Variable) :=
  match threshold with
  | some t =>
      if t != 0 then best.takeWhile (thresholdPred decreasing t) else best
  | none => best

/-- The pairs surviving the sort, the `k` truncation and the threshold
prefix cut, in sorted order. -/
def selectedBest (s : SelectBestFeatures) (data : Table) :
    List (ℚ × Variable) :=
  truncThreshold s.decreasing s.threshold (truncK s.k (sortedBest s data))

/-- The `ValueError` message: `("Scoring method {} requires a class variable "
"of type {}.").format(type(self.method), self.method.class_type)`. -/
def typeMismatchMessage (m : ScoringMethod) : String :=
  "Scoring method " ++ m.name ++ " requires a class variable of type " ++
    m.class_type ++ "."

/-- `SelectBestFeatures.__call__(self, data)`. -/
def SelectBestFeatures.call (s : SelectBestFeatures) (data : Table) :
    Except String Table :=
  if ! instanceOfOpt data.domain.class_var s.method.class_type then
    .error (typeMismatchMessage s.method)
  else
    let best := selectedBest s data
    let domain : Domain :=
      ⟨best.map (fun sf => sf.2) ++ otherFeatures s.method data,
        data.domain.class_vars, data.domain.metas⟩
    .ok (from_table domain data)

/-- `RemoveNaNColumns.__call__(self, data)`: `nan_col = np.all(np.isnan(
data.X), axis=0)`, then keep the attributes zipped with a false flag. -/
def RemoveNaNColumns.call (data : Table) : Table :=
  let nan_col := (List.range data.domain.attributes.length).map
    (fun j => data.rows.all (fun r => (r.getD j none).isNone))
  let att := ((data.domain.attributes.zip nan_col).filter
    (fun p => ! p.2)).map (fun p => p.1)
  let domain : Domain := ⟨att, data.domain.class_vars, data.domain.metas⟩
  from_table domain data

/-- `pre` is the longest initial segment of `l` all of whose elements satisfy
`p`: it is an initial segment, all its elements satisfy `p`, and every initial
segment of `l` all of whose elements satisfy `p` is an initial segment of it.
This is the spec's characterisation of the threshold step as a prefix cut. -/
def LongestSatInit {α : Type} (p : α → Bool) (l pre : List α) : Prop :=
  pre <+: l ∧ (∀ x ∈ pre, p x = true) ∧
    ∀ q, q <+: l → (∀ x ∈ q, p x = true) → q <+: pre

/-! Concrete instances used to witness the theorems below, following the
spec's worked examples (scores scaled by ten so they are integer rationals):
attributes `A` (score 9), `B` (score 5), both of the scorable kind, and `C`
of a different kind; a discrete class variable. -/

/-- Example attribute `A` (continuous, score 9). -/
def exA : Variable := ⟨"A", "continuous"⟩

/-- Example attribute `B` (continuous, score 5). -/
def exB : Variable := ⟨"B", "continuous"⟩

/-- Example attribute `C` (discrete, hence not scorable). -/
def exC : Variable := ⟨"C", "discrete"⟩

/-- Example class variable (discrete). -/
def exY : Variable := ⟨"y", "discrete"⟩

/-- Example scoring method: requires a discrete class and continuous
features; scores `A` at 9, `B` at 5, everything else at 2. -/
def exMethod : ScoringMethod :=
  ⟨"UnivariateScorer", "discrete", "continuous",
    fun f _ =>
      if f.name == "A" then 9 else if f.name == "B" then 5 else 2⟩

/-- Example table with attributes `[A, B, C]`, class `[y]`, no metas, one
row. -/
def exTable : Table :=
  ⟨⟨[exA, exB, exC], [exY], []⟩, [[some 1, some 2, some 3]]⟩

/-- Example selector with `k = 1`, no threshold, decreasing. -/
def exSelector : SelectBestFeatures := ⟨exMethod, some 1, none, true⟩

/-- The output of `exSelector` on `exTable` (extracted from the `Except`). -/
def exOut : Table := (exSelector.call exTable).toOption.getD exTable

/-- Example selector with only `threshold = 6`, decreasing. -/
def exThrSelector : SelectBestFeatures := ⟨exMethod, none, some 6, true⟩

/-- Example selector with both `k = 1` and `threshold = 6`, decreasing. -/
def exBothSelector : SelectBestFeatures :=
  ⟨exMethod, some 1, some 6, true⟩

/-- A scoring method giving every feature the same score, to exercise the
tie-breaking behaviour. -/
def exTieMethod : ScoringMethod := ⟨"TieScorer", "discrete", "continuous", fun _ _ => 1⟩

/-- Selector around `exTieMethod` with neither `k` nor `threshold`. -/
def exTieSelector : SelectBestFeatures := ⟨exTieMethod, none, none, true⟩

/-- Selector with `k = 0` and `threshold = 0`, both falsy in Python. -/
def exZeroSelector : SelectBestFeatures := ⟨exMethod, some 0, some 0, true⟩

/-- Example table whose class variable's kind does not match
`exMethod.class_type`. -/
def exBadTable : Table :=
  ⟨⟨[exA], [⟨"y", "continuous"⟩], []⟩, [[some 1]]⟩

/-- Example table with no class variable at all. -/
def exNoClassTable : Table := ⟨⟨[exA], [], []⟩, [[some 1]]⟩

/-- Example attribute `X`, entirely missing in `exNaNTable`. -/
def exX : Variable := ⟨"X", "continuous"⟩

/-- Example attribute `Yc`, with one known value in `exNaNTable`. -/
def exYc : Variable := ⟨"Yc", "continuous"⟩

/-- Example table for the column remover: `X` all missing, `Yc` has the
value 3.0. -/
def exNaNTable : Table := ⟨⟨[exX, exYc], [exY], []⟩, [[none, some 3]]⟩

/-! Helper lemmas shared by the claim theorems. -/

theorem pairLE_trans (d : Bool) (a b c : ℚ × Variable)
    (h1 : pairLE d a b = true) (h2 : pairLE d b c = true) :
    pairLE d a c = true := by
  cases d <;> simp only [pairLE, if_true, if_false, Bool.false_eq_true,
    decide_eq_true_eq] at h1 h2 ⊢
  · exact h1.trans h2
  · exact h2.trans h1

theorem pairLE_total (d : Bool) (a b : ℚ × Variable) :
    (pairLE d a b || pairLE d b a) = true := by
  cases d <;> simp only [pairLE, if_true, if_false, Bool.false_eq_true,
    Bool.or_eq_true, decide_eq_true_eq]
  · exact le_total _ _
  · exact le_total _ _

theorem zip_map_self {α β : Type} (g : α → β) (l : List α) :
    (l.map g).zip l = l.map (fun a => (g a, a)) := by
  induction l with
  | nil => rfl
  | cons a tl ih => simp [ih]

theorem scoredPairs_eq (m : ScoringMethod) (data : Table) :
    scoredPairs m data
      = (scorableFeatures m data).map (fun f => (m.score f data, f)) :=
  zip_map_self _ _

theorem scoredPairs_map_snd (m : ScoringMethod) (data : Table) :
    (scoredPairs m data).map (fun p => p.2) = scorableFeatures m data := by
  rw [scoredPairs_eq, List.map_map]
  exact List.map_id _

theorem scoredPairs_length (m : ScoringMethod) (data : Table) :
    (scoredPairs m data).length = (scorableFeatures m data).length := by
  rw [scoredPairs_eq]; simp

theorem sortedBest_perm (s : SelectBestFeatures) (data : Table) :
    (sortedBest s data).Perm (scoredPairs s.method data) :=
  List.mergeSort_perm _ _

theorem sortedBest_sorted (s : SelectBestFeatures) (data : Table) :
    List.Pairwise (fun a b => pairLE s.decreasing a b = true)
      (sortedBest s data) :=
  List.sorted_mergeSort (pairLE_trans s.decreasing)
    (pairLE_total s.decreasing) _

theorem sortedBest_length (s : SelectBestFeatures) (data : Table) :
    (sortedBest s data).length = (scorableFeatures s.method data).length := by
  unfold sortedBest
  rw [List.length_mergeSort, scoredPairs_length]

theorem takeWhile_longest {α : Type} (p : α → Bool) (l : List α) :
    ∀ q : List α, q <+: l → (∀ x ∈ q, p x = true) → q <+: l.takeWhile p := by
  induction l with
  | nil =>
    intro q hq _
    have : q = [] := List.prefix_nil.mp hq
    simp [this]
  | cons a tl ih =>
    intro q hq hsat
    match q with
    | [] => exact List.nil_prefix
    | b :: q2 =>
      obtain ⟨t, ht⟩ := hq
      have hba : b = a := by injection ht
      have hq2 : q2 <+: tl := ⟨t, by injection ht⟩
      have hpa : p a = true := hba ▸ hsat b (List.mem_cons_self _ _)
      rw [List.takeWhile_cons_of_pos hpa, hba]
      exact List.cons_prefix_cons.mpr
        ⟨rfl, ih q2 hq2 fun x hx => hsat x (List.mem_cons_of_mem _ hx)⟩

theorem takeWhile_longestSatInit {α : Type} (p : α → Bool) (l : List α) :
    LongestSatInit p l (l.takeWhile p) :=
  ⟨⟨l.dropWhile p, List.takeWhile_append_dropWhile p l⟩,
   fun _ hx => List.mem_takeWhile_imp hx,
   fun q hq hsat => takeWhile_longest p l q hq hsat⟩

theorem truncK_sublist (k : Option Nat) (l : List (ℚ × Variable)) :
    List.Sublist (truncK k l) l := by
  cases k with
  | none => exact List.Sublist.refl l
  | some kv =>
    show List.Sublist (if (kv != 0) = true then List.take kv l else l) l
    by_cases hkv : (kv != 0) = true
    · rw [if_pos hkv]; exact List.take_sublist kv l
    · rw [if_neg hkv]

theorem truncThreshold_sublist (d : Bool) (t : Option ℚ)
    (l : List (ℚ × Variable)) : List.Sublist (truncThreshold d t l) l := by
  cases t with
  | none => exact List.Sublist.refl l
  | some tv =>
    show List.Sublist
      (if (tv != 0) = true then List.takeWhile (thresholdPred d tv) l else l) l
    by_cases htv : (tv != 0) = true
    · rw [if_pos htv]; exact List.takeWhile_sublist _
    · rw [if_neg htv]

theorem selectedBest_sublist (s : SelectBestFeatures) (data : Table) :
    List.Sublist (selectedBest s data) (sortedBest s data) :=
  (truncThreshold_sublist _ _ _).trans (truncK_sublist _ _)

theorem call_ok_domain (s : SelectBestFeatures) (data out : Table)
    (h : s.call data = .ok out) :
    out.domain
      = ⟨(selectedBest s data).map (fun sf => sf.2)
            ++ otherFeatures s.method data,
          data.domain.class_vars, data.domain.metas⟩ := by
  unfold SelectBestFeatures.call at h
  by_cases hc :
      (! instanceOfOpt data.domain.class_var s.method.class_type) = true
  · rw [if_pos hc] at h
    cases h
  · rw [if_neg hc] at h
    injection h with h2
    rw [← h2]
    rfl

theorem subperm_append_same {α : Type} {l1 l2 r : List α}
    (h : List.Subperm l1 l2) : List.Subperm (l1 ++ r) (l2 ++ r) := by
  obtain ⟨w, hw, hs⟩ := h
  exact ⟨w ++ r, hw.append_right r, hs.append_right r⟩

theorem zip_map_fst_sublist {α β : Type} (l : List α) :
    ∀ ys : List β, List.Sublist ((l.zip ys).map (fun p => p.1)) l := by
  induction l with
  | nil => intro ys; simp
  | cons a tl ih =>
    intro ys
    cases ys with
    | nil => simp
    | cons y ys => simpa using List.Sublist.cons₂ a (ih ys)

theorem removeNaN_attrs_sublist (data : Table) :
    List.Sublist (RemoveNaNColumns.call data).domain.attributes
      data.domain.attributes := by
  show List.Sublist (((data.domain.attributes.zip _).filter _).map _) _
  exact ((List.filter_sublist _).map _).trans (zip_map_fst_sublist _ _)

/-! The claim theorems. -/

/-- Claim C1: with `threshold` set (truthy) and `k` unset, the kept scored
pairs are `takeWhile` of the score-sorted list, i.e. exactly its longest
initial segment whose scores satisfy the threshold predicate (`≥ threshold`
when decreasing, `≤ threshold` otherwise); everything after the first failing
pair is discarded even if it individually satisfies the predicate. -/
theorem claim_C1 (s : SelectBestFeatures) (data : Table) (t : ℚ)
    (ht : s.threshold = some t) (htnz : t ≠ 0) (hk : s.k = none) :
    selectedBest s data
        = (sortedBest s data).takeWhile (thresholdPred s.decreasing t)
      ∧ LongestSatInit (thresholdPred s.decreasing t) (sortedBest s data)
          (selectedBest s data) := by
  have h1 : selectedBest s data
      = (sortedBest s data).takeWhile (thresholdPred s.decreasing t) := by
    unfold selectedBest
    rw [hk, ht]
    show (if (t != 0) = true then _ else _) = _
    rw [if_pos (by simpa using htnz)]
    rfl
  exact ⟨h1, h1 ▸ takeWhile_longestSatInit _ _⟩

theorem claim_C1_witness :
    selectedBest exThrSelector exTable
        = (sortedBest exThrSelector exTable).takeWhile (thresholdPred true 6)
      ∧ LongestSatInit (thresholdPred true 6) (sortedBest exThrSelector exTable)
          (selectedBest exThrSelector exTable) :=
  claim_C1 exThrSelector exTable 6 rfl (by decide) rfl

/-- Claim C2: on a class-variable kind mismatch the call fails with the
`TypeMismatch` message, which contains the method's identity and the required
class-variable kind; when the kinds match, the call returns an output table,
so no other error is raised. -/
theorem claim_C2 (s : SelectBestFeatures) (data data2 : Table)
    (h : instanceOfOpt data.domain.class_var s.method.class_type = false)
    (h2 : instanceOfOpt data2.domain.class_var s.method.class_type = true) :
    s.call data = .error (typeMismatchMessage s.method)
      ∧ (∃ u v, typeMismatchMessage s.method = u ++ s.method.name ++ v)
      ∧ (∃ u v, typeMismatchMessage s.method
            = u ++ s.method.class_type ++ v)
      ∧ ∃ out, s.call data2 = .ok out := by
  refine ⟨?_, ?_, ?_, ?_⟩
  · unfold SelectBestFeatures.call
    rw [h]
    rfl
  · refine ⟨"Scoring method ",
      " requires a class variable of type " ++ s.method.class_type ++ ".", ?_⟩
    simp only [typeMismatchMessage, String.append_assoc]
  · refine ⟨"Scoring method " ++ s.method.name
        ++ " requires a class variable of type ", ".", ?_⟩
    simp only [typeMismatchMessage, String.append_assoc]
  · simp only [SelectBestFeatures.call, h2, Bool.not_true, Bool.false_eq_true,
      if_false]
    exact ⟨_, rfl⟩

theorem claim_C2_witness :
    exSelector.call exBadTable = .error (typeMismatchMessage exMethod)
      ∧ (∃ u v, typeMismatchMessage exMethod = u ++ exMethod.name ++ v)
      ∧ (∃ u v, typeMismatchMessage exMethod
            = u ++ exMethod.class_type ++ v)
      ∧ ∃ out, exSelector.call exTable = .ok out :=
  claim_C2 exSelector exBadTable exTable (by decide) (by decide)

/-- Claim C3: ties are stable — two scorable features given equal scores
appear in the sorted list in their original relative order, for either value
of `decreasing`. -/
theorem claim_C3 (s : SelectBestFeatures) (data : Table) (c : ℚ)
    (f g : Variable)
    (h : List.Sublist [(c, f), (c, g)] (scoredPairs s.method data)) :
    List.Sublist [(c, f), (c, g)] (sortedBest s data) :=
  List.pair_sublist_mergeSort (pairLE_trans s.decreasing)
    (pairLE_total s.decreasing) (by cases s.decreasing <;> simp [pairLE]) h

theorem claim_C3_witness :
    List.Sublist [((1 : ℚ), exA), (1, exB)] (sortedBest exTieSelector exTable) :=
  claim_C3 exTieSelector exTable 1 exA exB (by decide)

/-- Claim C9: the `k` and `threshold` steps are guarded by Python
truthiness, so `k = 0` performs no truncation and `threshold = 0` performs no
prefix cut (with `decreasing` and `threshold = 0`, negative scores are
kept). -/
theorem claim_C9 (s : SelectBestFeatures) (l : List (ℚ × Variable)) :
    (s.k = some 0 → truncK s.k l = l)
      ∧ (s.threshold = some 0
          → truncThreshold s.decreasing s.threshold l = l) := by
  constructor
  · intro hk
    rw [hk]
    rfl
  · intro ht
    rw [ht]
    rfl

theorem claim_C9_witness :
    (truncK exZeroSelector.k [((-1 : ℚ), exA)] = [((-1 : ℚ), exA)])
      ∧ truncThreshold exZeroSelector.decreasing exZeroSelector.threshold
          [((-1 : ℚ), exA)] = [((-1 : ℚ), exA)] :=
  ⟨(claim_C9 exZeroSelector [((-1 : ℚ), exA)]).1 rfl,
   (claim_C9 exZeroSelector [((-1 : ℚ), exA)]).2 rfl⟩

/-- Claim C10: a table whose domain has no single class variable
(`class_var` is `None`) always makes the call raise the `TypeMismatch`
error, since `None` is never an instance of `method.class_type`. -/
theorem claim_C10 (s : SelectBestFeatures) (data : Table)
    (h : data.domain.class_var = none) :
    s.call data = .error (typeMismatchMessage s.method) := by
  unfold SelectBestFeatures.call
  rw [h]
  rfl

theorem claim_C10_witness :
    exSelector.call exNoClassTable = .error (typeMismatchMessage exMethod) :=
  claim_C10 exSelector exNoClassTable rfl

/-- Claim C4: with only a positive `k` set, the selection is the first `k`
pairs of the score-sorted list, so exactly `min k |scorable|` pairs; the
sorted list is ordered by the configured comparison and is a permutation of
the scored pairs, so these are the top `k` by score. -/
theorem claim_C4 (s : SelectBestFeatures) (data : Table) (kv : Nat)
    (hk : s.k = some kv) (hkpos : 0 < kv) (ht : s.threshold = none) :
    selectedBest s data = (sortedBest s data).take kv
      ∧ (selectedBest s data).length
          = min kv (scorableFeatures s.method data).length
      ∧ List.Pairwise (fun a b => pairLE s.decreasing a b = true)
          (sortedBest s data)
      ∧ (sortedBest s data).Perm (scoredPairs s.method data) := by
  have h1 : selectedBest s data = (sortedBest s data).take kv := by
    unfold selectedBest
    rw [hk, ht]
    show (if (kv != 0) = true then (sortedBest s data).take kv
        else sortedBest s data) = (sortedBest s data).take kv
    rw [if_pos (by simp only [bne_iff_ne, ne_eq]; omega)]
  refine ⟨h1, ?_, sortedBest_sorted s data, sortedBest_perm s data⟩
  rw [h1, List.length_take, sortedBest_length]

theorem claim_C4_witness :
    selectedBest exSelector exTable = (sortedBest exSelector exTable).take 1
      ∧ (selectedBest exSelector exTable).length
          = min 1 (scorableFeatures exMethod exTable).length
      ∧ List.Pairwise (fun a b => pairLE true a b = true)
          (sortedBest exSelector exTable)
      ∧ (sortedBest exSelector exTable).Perm (scoredPairs exMethod exTable) :=
  claim_C4 exSelector exTable 1 rfl (by decide) rfl

/-- Claim C5: with both `k` and `threshold` set (truthy), the threshold
prefix cut applies after the `k`-truncation, so at most `k` pairs remain. -/
theorem claim_C5 (s : SelectBestFeatures) (data : Table) (kv : Nat) (t : ℚ)
    (hk : s.k = some kv) (hkpos : 0 < kv) (ht : s.threshold = some t)
    (htnz : t ≠ 0) :
    selectedBest s data
        = ((sortedBest s data).take kv).takeWhile
            (thresholdPred s.decreasing t)
      ∧ (selectedBest s data).length ≤ kv := by
  have h1 : selectedBest s data
      = ((sortedBest s data).take kv).takeWhile
          (thresholdPred s.decreasing t) := by
    unfold selectedBest
    rw [hk, ht]
    show truncThreshold s.decreasing (some t)
        (if (kv != 0) = true then (sortedBest s data).take kv
          else sortedBest s data) = _
    rw [if_pos (by simp only [bne_iff_ne, ne_eq]; omega)]
    show (if (t != 0) = true then _ else _) = _
    rw [if_pos (by simpa using htnz)]
  refine ⟨h1, ?_⟩
  rw [h1]
  refine le_trans (List.Sublist.length_le (List.takeWhile_sublist _)) ?_
  rw [List.length_take]
  exact inf_le_left

theorem claim_C5_witness :
    selectedBest exBothSelector exTable
        = ((sortedBest exBothSelector exTable).take 1).takeWhile
            (thresholdPred true 6)
      ∧ (selectedBest exBothSelector exTable).length ≤ 1 :=
  claim_C5 exBothSelector exTable 1 6 rfl (by decide) rfl (by decide)

/-- Claim C6: the output attribute list is the selected scored features in
sorted order followed by the non-matching-kind attributes, which form an
order-preserving subset of the input attribute list. -/
theorem claim_C6 (s : SelectBestFeatures) (data : Table) (out : Table)
    (h : s.call data = .ok out) :
    out.domain.attributes
        = (selectedBest s data).map (fun sf => sf.2)
            ++ otherFeatures s.method data
      ∧ List.Sublist (otherFeatures s.method data)
          data.domain.attributes := by
  refine ⟨?_, List.filter_sublist _⟩
  rw [call_ok_domain s data out h]

theorem claim_C6_witness :
    (exOut.domain.attributes
        = (selectedBest exSelector exTable).map (fun sf => sf.2)
            ++ otherFeatures exMethod exTable
      ∧ List.Sublist (otherFeatures exMethod exTable)
          exTable.domain.attributes)
      ∧ exOut.domain.attributes = [exA, exC] := by
  have h := claim_C6 exSelector exTable exOut rfl
  refine ⟨h, ?_⟩
  have h2 : selectedBest exSelector exTable = [((9 : ℚ), exA)] := by
    unfold selectedBest
    rw [show sortedBest exSelector exTable
        = scoredPairs exSelector.method exTable from
      List.mergeSort_of_sorted (by decide)]
    rfl
  rw [h.1, h2]
  rfl

theorem zipFilterMap_subset {α : Type} (l : List α) (ys : List Bool) (x : α)
    (hx : x ∈ ((l.zip ys).filter (fun p => ! p.2)).map (fun p => p.1)) :
    x ∈ l := by
  obtain ⟨p, hp, hpx⟩ := List.mem_map.mp hx
  obtain ⟨a, b⟩ := p
  have hz := (List.mem_filter.mp hp).1
  rw [← hpx]
  exact (List.of_mem_zip hz).1

theorem zipRangeFilter_mem {α : Type} [DecidableEq α] :
    ∀ (l : List α) (m : Nat) (q : Nat → Bool), l.Nodup →
      ∀ i, ∀ h : i < l.length,
        (l.get ⟨i, h⟩ ∈
            ((l.zip ((List.range' m l.length).map q)).filter
              (fun p => ! p.2)).map (fun p => p.1)
          ↔ q (m + i) = false) := by
  intro l
  induction l with
  | nil =>
    intro m q _ i h
    exact absurd h (Nat.not_lt_zero i)
  | cons a tl ih =>
    intro m q hnd i h
    obtain ⟨ha, hnd2⟩ := List.nodup_cons.mp hnd
    have hstep : (a :: tl).zip ((List.range' m (a :: tl).length).map q)
        = (a, q m) :: tl.zip ((List.range' (m + 1) tl.length).map q) := by
      simp [List.length_cons, List.range'_succ]
    cases i with
    | zero =>
      rw [hstep]
      cases hq : q m with
      | false =>
        constructor
        · intro _; exact hq
        · intro _
          rw [List.filter_cons_of_pos (by simp), List.map_cons]
          exact List.mem_cons_self _ _
      | true =>
        constructor
        · intro hmem
          rw [List.filter_cons_of_neg (by simp)] at hmem
          exact absurd (zipFilterMap_subset _ _ _ hmem) ha
        · intro hfalse
          have hf2 : q m = false := hfalse
          rw [hq] at hf2
          exact absurd hf2 (by decide)
    | succ j =>
      have hj : j < tl.length := Nat.lt_of_succ_lt_succ h
      have hget : (a :: tl).get ⟨j + 1, h⟩ = tl.get ⟨j, hj⟩ := rfl
      rw [hstep, hget]
      have hgm : tl.get ⟨j, hj⟩ ≠ a :=
        fun hEq => ha (hEq ▸ List.get_mem tl j hj)
      have hIH := ih (m + 1) q hnd2 j hj
      rw [show m + (j + 1) = m + 1 + j by omega]
      cases hq : q m with
      | false =>
        rw [List.filter_cons_of_pos (by simp [hq]), List.map_cons,
          List.mem_cons]
        constructor
        · intro hc
          rcases hc with hc | hc
          · exact absurd hc hgm
          · exact hIH.mp hc
        · intro hf
          exact Or.inr (hIH.mpr hf)
      | true =>
        rw [List.filter_cons_of_neg (by simp [hq])]
        exact hIH

theorem all_isNone_false_iff (rows : List (List (Option ℚ))) (i : Nat) :
    ((rows.all (fun r => (r.getD i none).isNone)) = false
      ↔ ∃ r ∈ rows, (r.getD i none).isSome = true) := by
  constructor
  · intro hall
    by_contra hno
    push_neg at hno
    have hT : rows.all (fun r => (r.getD i none).isNone) = true := by
      rw [List.all_eq_true]
      intro r hr
      have h2 := hno r hr
      cases hcell : (r.getD i none) with
      | none => simp
      | some v => rw [hcell] at h2; simp at h2
    rw [hT] at hall
    cases hall
  · rintro ⟨r, hr, hs⟩
    cases hall : rows.all (fun r => (r.getD i none).isNone) with
    | false => rfl
    | true =>
      have h2 := List.all_eq_true.mp hall r hr
      cases hcell : (r.getD i none) with
      | none => rw [hcell] at hs; cases hs
      | some v => rw [hcell] at h2; cases h2

/-- Claim C7: `RemoveNaNColumns` keeps an attribute exactly when its column
has at least one non-missing value (so a column that is entirely missing is
removed), and the class and meta variable lists are kept unchanged. -/
theorem claim_C7 (data : Table) (hnd : data.domain.attributes.Nodup) :
    (∀ i, ∀ h : i < data.domain.attributes.length,
        (data.domain.attributes.get ⟨i, h⟩
            ∈ (RemoveNaNColumns.call data).domain.attributes
          ↔ ∃ r ∈ data.rows, (r.getD i none).isSome = true))
      ∧ (RemoveNaNColumns.call data).domain.class_vars
          = data.domain.class_vars
      ∧ (RemoveNaNColumns.call data).domain.metas = data.domain.metas := by
  refine ⟨?_, rfl, rfl⟩
  intro i h
  have hmem := zipRangeFilter_mem data.domain.attributes 0
    (fun j => data.rows.all (fun r => (r.getD j none).isNone)) hnd i h
  rw [Nat.zero_add] at hmem
  have hshow : (RemoveNaNColumns.call data).domain.attributes
      = ((data.domain.attributes.zip
            ((List.range' 0 data.domain.attributes.length).map
              (fun j => data.rows.all
                (fun r => (r.getD j none).isNone)))).filter
          (fun p => ! p.2)).map (fun p => p.1) := by
    show ((data.domain.attributes.zip
        ((List.range data.domain.attributes.length).map _)).filter _).map _
      = _
    rw [List.range_eq_range']
  rw [hshow, hmem]
  exact all_isNone_false_iff data.rows i

theorem claim_C7_witness :
    ((¬ exX ∈ (RemoveNaNColumns.call exNaNTable).domain.attributes)
        ∧ exYc ∈ (RemoveNaNColumns.call exNaNTable).domain.attributes)
      ∧ (RemoveNaNColumns.call exNaNTable).domain.class_vars = [exY]
      ∧ (RemoveNaNColumns.call exNaNTable).domain.metas = [] := by
  have h := claim_C7 exNaNTable (by decide)
  refine ⟨⟨?_, ?_⟩, h.2.1, h.2.2⟩
  · exact fun hmem => absurd ((h.1 0 (by decide)).mp hmem) (by decide)
  · exact (h.1 1 (by decide)).mpr (by decide)

/-- Claim C8: for both components, the output attribute list is drawn from
the input's (a reordered subset for the selector, an order-preserving subset
for the column remover), while the class and meta variable lists are exactly
the input's. -/
theorem claim_C8 (s : SelectBestFeatures) (data : Table) (out : Table)
    (h : s.call data = .ok out) :
    List.Subperm out.domain.attributes data.domain.attributes
      ∧ out.domain.class_vars = data.domain.class_vars
      ∧ out.domain.metas = data.domain.metas
      ∧ List.Sublist (RemoveNaNColumns.call data).domain.attributes
          data.domain.attributes
      ∧ (RemoveNaNColumns.call data).domain.class_vars
          = data.domain.class_vars
      ∧ (RemoveNaNColumns.call data).domain.metas = data.domain.metas := by
  have hdom := call_ok_domain s data out h
  refine ⟨?_, by rw [hdom], by rw [hdom], removeNaN_attrs_sublist data,
    rfl, rfl⟩
  have hsel : List.Subperm
      ((selectedBest s data).map (fun sf => sf.2))
      (scorableFeatures s.method data) := by
    have h1 : List.Sublist ((selectedBest s data).map (fun sf => sf.2))
        ((sortedBest s data).map (fun sf => sf.2)) :=
      (selectedBest_sublist s data).map _
    have h2 : ((sortedBest s data).map (fun sf => sf.2)).Perm
        (scorableFeatures s.method data) := by
      rw [← scoredPairs_map_snd s.method data]
      exact (sortedBest_perm s data).map _
    exact h1.subperm.trans h2.subperm
  have happ : List.Subperm
      ((selectedBest s data).map (fun sf => sf.2)
        ++ otherFeatures s.method data)
      (scorableFeatures s.method data ++ otherFeatures s.method data) :=
    subperm_append_same hsel
  have hperm : (scorableFeatures s.method data
      ++ otherFeatures s.method data).Perm data.domain.attributes :=
    List.filter_append_perm _ _
  rw [hdom]
  exact happ.trans hperm.subperm

theorem claim_C8_witness :
    List.Subperm exOut.domain.attributes exTable.domain.attributes
      ∧ exOut.domain.class_vars = exTable.domain.class_vars
      ∧ exOut.domain.metas = exTable.domain.metas
      ∧ List.Sublist (RemoveNaNColumns.call exTable).domain.attributes
          exTable.domain.attributes
      ∧ (RemoveNaNColumns.call exTable).domain.class_vars
          = exTable.domain.class_vars
      ∧ (RemoveNaNColumns.call exTable).domain.metas
          = exTable.domain.metas :=
  claim_C8 exSelector exTable exOut rfl

end Orange
